import Mathlib

/-!
Verification of the repository-onboarding automation core
(backstage_automation.py and secure_storage.py).

The Python code talks to a remote source-control API through fallible
calls that raise exceptions both when an object is absent (HTTP 404) and
when a call fails in transit.  The embedding makes every such call an
explicit input of the modelled function:
a probe result of the form Option or Except, where the error side stands
for a raised exception.  Control flow (try/except, early return, loops
with break) is translated structurally.
-/

/-! ## String helpers

Python substring tests (the in operator) and str.replace are modelled on
the character lists underlying String. -/

/-- needle is a prefix of hay (character lists). -/
def listPrefixB : List Char → List Char → Bool
  | [], _ => true
  | _ :: _, [] => false
  | a :: as, b :: bs => a == b && listPrefixB as bs

/-- needle occurs as a contiguous substring of hay (character lists);
models the Python expression needle in hay. -/
def listSub (needle : List Char) : List Char → Bool
  | [] => needle.isEmpty
  | c :: rest => listPrefixB needle (c :: rest) || listSub needle rest

/-- Python: needle in hay. -/
def strContains (hay needle : String) : Bool := listSub needle.data hay.data

/-- Python str.lower(); the modelled inputs are ASCII, where
Char.toLower agrees with Python. -/
def strLower (s : String) : String := String.mk (s.data.map Char.toLower)

/-- Python s.endswith(post). -/
def strEndsWith (s post : String) : Bool :=
  listPrefixB post.data.reverse s.data.reverse

/-! ## Component type (backstage_automation.py, _determine_component_type)

repo.get_contents(path) is modelled as a probe String → Option Bool:
none means the call raises (the file is absent or the request fails),
some b means it returns an object whose Python truthiness is b
(a present file yields a truthy object; a directory yields the list of
its entries).  The Python expression
any(repo.get_contents(f) for f in files) evaluates the probes left to
right inside the generator, so a raised exception escapes the any() and
reaches the enclosing try. -/

def serviceFiles : List String := ["Dockerfile", "docker-compose.yml", "k8s", "kubernetes"]

def websiteFiles : List String := ["package.json", "index.html", "public/index.html", "src/index.js"]

def libraryFiles : List String := ["setup.py", "composer.json", "go.mod"]

/-- any(repo.get_contents(f) for f in files): left-to-right, short-circuit,
an exception (probe = none) propagates. -/
def anyContents (probe : String → Option Bool) : List String → Except Unit Bool
  | [] => Except.ok false
  | f :: rest =>
    match probe f with
    | none => Except.error ()
    | some true => Except.ok true
    | some false => anyContents probe rest

/-- _determine_component_type: the three indicator checks in order inside a
try whose blanket except returns "service". -/
def determineComponentType (probe : String → Option Bool) : String :=
  match anyContents probe serviceFiles with
  | Except.error _ => "service"
  | Except.ok true => "service"
  | Except.ok false =>
    match anyContents probe websiteFiles with
    | Except.error _ => "service"
    | Except.ok true => "website"
    | Except.ok false =>
      match anyContents probe libraryFiles with
      | Except.error _ => "service"
      | Except.ok true => "library"
      | Except.ok false => "service"

/-- Probe of an ordinary repository: each present path returns a truthy
content object, every other path makes get_contents raise (404). -/
def probeOfFiles (present : List String) : String → Option Bool :=
  fun p => if present.contains p then some true else none

/-! ## Lifecycle (backstage_automation.py, _determine_lifecycle)

repo.get_branch(base).get_protection() raises when the branch is missing
and also raises (404, branch not protected) when protection is disabled;
it returns a truthy BranchProtection object only when protection is
enabled.  commits.totalCount is the one paginated lookup that can fail,
and it is only forced in the branch that reads it (repo.get_commits() is
lazy), so its possible failure is modelled at that read. -/

inductive BranchState where
  | missing
  | unprotected
  | protectedOn
deriving DecidableEq

/-- repo.get_branch(base).get_protection() as observed through PyGithub. -/
def getProtection : BranchState → Except Unit Bool
  | BranchState.missing => Except.error ()
  | BranchState.unprotected => Except.error ()
  | BranchState.protectedOn => Except.ok true

structure RepoLC where
  archived : Bool
  branch : BranchState
  ageDays : Nat
  commitCount : Option Nat
  hasLastPush : Bool
deriving DecidableEq

/-- _determine_lifecycle: archived check, protection check, age check,
commit-count check, inside a try whose blanket except returns
"production". -/
def determineLifecycle (r : RepoLC) : String :=
  if r.archived then "deprecated"
  else
    match getProtection r.branch with
    | Except.error _ => "production"
    | Except.ok p =>
      if p then "production"
      else if r.ageDays < 90 then "experimental"
      else
        match r.commitCount with
        | none => "production"
        | some commits =>
          if commits > 100 && r.hasLastPush then "production" else "development"

/-! ## Status aggregation (backstage_automation.py, generate_status_report)

Per repository the method probes get_contents("catalog-info.yaml")
inside an inner try whose except is pass: both a 404 (file absent) and a
transport failure fall through to the pull-request stage.  repo.get_pulls
and the iteration over it sit in the outer try: a failure there becomes
the error detail line.  Counters are local to the call; the detail list
self.status_report is an instance attribute that accumulates across
calls, so it is threaded through explicitly. -/

inductive LookupErr where
  | absent
  | transportFail
deriving DecidableEq

structure PullReq where
  number : Nat
  headRef : String
deriving DecidableEq

structure RepoST where
  name : String
  /-- Outcome of get_contents("catalog-info.yaml"): ok means the call
  returned (file present); error carries why it raised. -/
  descriptorProbe : Except LookupErr Unit
  /-- Outcome of listing the open pull requests. -/
  pulls : Except String (List PullReq)

inductive Status where
  | onboarded
  | inProgress (prNumber : Nat)
  | notOnboarded
  | error (msg : String)
deriving DecidableEq

/-- The loop over open_prs: first PR whose branch name contains the
marker, if any (the break in the source). -/
def findMarkerPR : List PullReq → Option PullReq
  | [] => none
  | pr :: rest =>
    if strContains pr.headRef "backstage-integration" then some pr
    else findMarkerPR rest

/-- Status resolution for one repository, extracted from the loop body of
generate_status_report. -/
def statusOf (r : RepoST) : Status :=
  match r.descriptorProbe with
  | Except.ok _ => Status.onboarded
  | Except.error _ =>
    match r.pulls with
    | Except.error msg => Status.error msg
    | Except.ok prs =>
      match findMarkerPR prs with
      | some pr => Status.inProgress pr.number
      | none => Status.notOnboarded

/-- The detail line appended to self.status_report for one repository. -/
def detailLine (r : RepoST) : String :=
  match statusOf r with
  | Status.onboarded => "✅ " ++ r.name ++ ": Onboarded"
  | Status.inProgress n => "🔄 " ++ r.name ++ ": In Progress (PR #" ++ toString n ++ ")"
  | Status.notOnboarded => "❌ " ++ r.name ++ ": Not Onboarded"
  | Status.error m => "⚠️ " ++ r.name ++ ": Error - " ++ m

structure Counts where
  total : Nat
  onboarded : Nat
  inProgress : Nat
  notOnboarded : Nat
deriving DecidableEq

/-- One iteration of the counting loop: total always increments, exactly
one positive counter increments unless the repository errored. -/
def stepCounts (c : Counts) (r : RepoST) : Counts :=
  let c := { c with total := c.total + 1 }
  match statusOf r with
  | Status.onboarded => { c with onboarded := c.onboarded + 1 }
  | Status.inProgress _ => { c with inProgress := c.inProgress + 1 }
  | Status.notOnboarded => { c with notOnboarded := c.notOnboarded + 1 }
  | Status.error _ => c

/-- The loop of generate_status_report: counters start at zero, detail
lines are appended to the accumulated self.status_report. -/
def runReportAux : Counts → List String → List RepoST → Counts × List String
  | c, lines, [] => (c, lines)
  | c, lines, r :: rest => runReportAux (stepCounts c r) (lines ++ [detailLine r]) rest

/-- generate_status_report over a repository list, given the prior
contents of self.status_report; returns the counts of this run and the
new accumulated detail list. -/
def runReport (repos : List RepoST) (statusReport : List String) : Counts × List String :=
  runReportAux { total := 0, onboarded := 0, inProgress := 0, notOnboarded := 0 }
    statusReport repos

def isOnboardedB : Status → Bool
  | Status.onboarded => true
  | _ => false

def isInProgressB : Status → Bool
  | Status.inProgress _ => true
  | _ => false

def isNotOnboardedB : Status → Bool
  | Status.notOnboarded => true
  | _ => false

/-- A repository whose descriptor lookup failed in transit (not a 404)
and that has no open pull requests. -/
def stRepoFail : RepoST :=
  { name := "repo-x", descriptorProbe := Except.error LookupErr.transportFail,
    pulls := Except.ok [] }

def stRepoPR : RepoST :=
  { name := "repo-a", descriptorProbe := Except.error LookupErr.absent,
    pulls := Except.ok [{ number := 7, headRef := "backstage-integration-1700000000" }] }

/-! ## API spec detection (backstage_automation.py, _detect_api_specs)

The scan lists the top level; it recurses one level into directories
named docs, api or specs (inner try: any exception there runs continue,
abandoning the rest of that directory but keeping what was already
appended to api_specs); any other exception reaches the outer except,
which prints and then falls through to return api_specs — the entries
collected so far. -/

/-- A file entry inside a recognized subdirectory: name, path, and the
outcome of decoded_content.decode(). -/
structure SubEntry where
  name : String
  path : String
  contentResult : Except Unit String

/-- A top-level entry.  For a file, contentResult is the outcome of
decoded_content.decode(); for a directory, subEntries is the outcome of
get_contents(path). -/
structure TopEntry where
  name : String
  isDir : Bool
  path : String
  contentResult : Except Unit String
  subEntries : Except Unit (List SubEntry)

/-- The repository as seen by the scan: the outcome of
get_contents(""). -/
structure RepoFS where
  topLevel : Except Unit (List TopEntry)

structure ApiSpec where
  path : String
  type : String
  content : String
deriving DecidableEq

def specPatterns : List String :=
  ["openapi.yaml", "openapi.yml", "openapi.json",
   "swagger.yaml", "swagger.yml", "swagger.json",
   "asyncapi.yaml", "asyncapi.yml", "asyncapi.json",
   "graphql.schema", "schema.graphql"]

def specDirNames : List String := ["docs", "api", "specs"]

/-- name.lower().endswith(pat) for some pattern. -/
def specNameMatches (n : String) : Bool :=
  specPatterns.any (fun pat => strEndsWith (strLower n) pat)

/-- _determine_api_type. -/
def determineApiType (filename : String) : String :=
  let f := strLower filename
  if strContains f "openapi" || strContains f "swagger" then "openapi"
  else if strContains f "asyncapi" then "asyncapi"
  else if strContains f "graphql" then "graphql"
  else "openapi"

/-- The inner loop over a recognized subdirectory.  A decode failure
raises inside the inner try, whose except runs continue on the OUTER
loop: the rest of this directory is abandoned but the entries appended
so far stay in api_specs, so the accumulator is returned as-is. -/
def processSub (acc : List ApiSpec) : List SubEntry → List ApiSpec
  | [] => acc
  | s :: rest =>
    if specNameMatches s.name then
      match s.contentResult with
      | Except.error _ => acc
      | Except.ok c =>
        processSub (acc ++ [{ path := s.path, type := determineApiType s.name, content := c }]) rest
    else processSub acc rest

/-- The outer loop over the top level.  Listing a recognized directory
can fail inside the inner try (continue); reading a matched top-level
file can fail outside any inner try, so that exception reaches the
outer except and the accumulator collected so far is returned. -/
def processTop (acc : List ApiSpec) : List TopEntry → List ApiSpec
  | [] => acc
  | e :: rest =>
    if e.isDir then
      if specDirNames.contains (strLower e.name) then
        match e.subEntries with
        | Except.error _ => processTop acc rest
        | Except.ok subs => processTop (processSub acc subs) rest
      else processTop acc rest
    else
      if specNameMatches e.name then
        match e.contentResult with
        | Except.error _ => acc
        | Except.ok c =>
          processTop (acc ++ [{ path := e.path, type := determineApiType e.name, content := c }]) rest
      else processTop acc rest

/-- _detect_api_specs: a failure listing the top level yields the (still
empty) accumulator. -/
def detectApiSpecs (r : RepoFS) : List ApiSpec :=
  match r.topLevel with
  | Except.error _ => []
  | Except.ok entries => processTop [] entries

/-- A top-level openapi.yaml that reads fine. -/
def fsGoodSpec : TopEntry :=
  { name := "openapi.yaml", isDir := false, path := "openapi.yaml",
    contentResult := Except.ok "spec-a", subEntries := Except.ok [] }

/-- A top-level swagger.yaml whose content read raises. -/
def fsBadSpec : TopEntry :=
  { name := "swagger.yaml", isDir := false, path := "swagger.yaml",
    contentResult := Except.error (), subEntries := Except.ok [] }

/-- A repository where an I/O failure happens midway through the scan,
after one spec was already collected. -/
def fsPartialRepo : RepoFS := { topLevel := Except.ok [fsGoodSpec, fsBadSpec] }

/-! ## Owner (backstage_automation.py, _determine_owner)

The CODEOWNERS content is scanned with the regular expression
re.findall applied to the pattern at sign, one-or-more word-or-hyphen
characters, slash, one-or-more word-or-hyphen characters.  Since slash
is not in the character class, the greedy runs never backtrack, so the
scan below (leftmost match, continue after the match end) computes
exactly re.findall.  The recursion is driven by a fuel argument equal to
the initial length; every step consumes at least one character, so the
fuel never runs out. -/

/-- A character of the class word-or-hyphen in the CODEOWNERS pattern
(the Python escape for word characters plus hyphen; inputs are ASCII). -/
def isWordHyphen (c : Char) : Bool := c.isAlphanum || c == '_' || c == '-'

/-- Greedy run of word-or-hyphen characters: the run and the rest. -/
def takeRun : List Char → List Char × List Char
  | [] => ([], [])
  | c :: rest =>
    if isWordHyphen c then
      let p := takeRun rest
      (c :: p.1, p.2)
    else ([], c :: rest)

/-- Attempt to match the team pattern at the head of the input; on
success returns the matched characters (at sign included) and the rest
of the input after the match. -/
def matchTeamAt : List Char → Option (List Char × List Char)
  | [] => none
  | c :: rest =>
    if c == '@' then
      let p1 := takeRun rest
      if p1.1.isEmpty then none
      else
        match p1.2 with
        | [] => none
        | d :: r2 =>
          if d == '/' then
            let p2 := takeRun r2
            if p2.1.isEmpty then none
            else some ('@' :: p1.1 ++ '/' :: p2.1, p2.2)
          else none
    else none

/-- re.findall over the content: leftmost matches, non-overlapping,
continuing after each match end. -/
def findTeamsAux : Nat → List Char → List String
  | 0, _ => []
  | _, [] => []
  | fuel + 1, c :: rest =>
    match matchTeamAt (c :: rest) with
    | some (m, r) => String.mk m :: findTeamsAux fuel r
    | none => findTeamsAux fuel rest

def findTeams (l : List Char) : List String := findTeamsAux l.length l

structure RepoOwn where
  /-- Outcome of get_contents("CODEOWNERS") and decoding its content. -/
  codeowners : Except Unit String
  /-- Outcome of get_contributors(): the contributor logins in order of
  decreasing contributions (totalCount is the length, next() the head). -/
  contributors : Except Unit (List String)
  /-- Outcome of org.get_user_teams(top_contributor): the team names. -/
  userTeams : Except Unit (List String)

/-- The CODEOWNERS stage: the inner try swallows every exception (pass),
and an empty findall falls through; the first team found is returned
with every at sign removed (str.replace). -/
def ownerFromCodeowners : Except Unit String → Option String
  | Except.error _ => none
  | Except.ok content =>
    match findTeams content.data with
    | [] => none
    | t :: _ => some (String.mk (t.data.filter (fun c => !(c == '@'))))

/-- _determine_owner: CODEOWNERS stage, then top contributor with team
resolution.  The try around get_user_teams returns user:login on an
exception; a SUCCESSFUL lookup with zero teams falls through, past the
except, to the literal default-team fallback.  A failure getting the
contributors reaches the outer except, which also returns
default-team. -/
def determineOwner (r : RepoOwn) : String :=
  match ownerFromCodeowners r.codeowners with
  | some t => t
  | none =>
    match r.contributors with
    | Except.error _ => "default-team"
    | Except.ok [] => "default-team"
    | Except.ok (top :: _) =>
      match r.userTeams with
      | Except.error _ => "user:" ++ top
      | Except.ok [] => "default-team"
      | Except.ok (t :: _) => t

/-- A repository with no CODEOWNERS, one contributor, and a team lookup
that succeeds with an empty result. -/
def ownRepoEmptyTeams : RepoOwn :=
  { codeowners := Except.error (), contributors := Except.ok ["alice"],
    userTeams := Except.ok [] }

/-! ## Priority scoring (backstage_automation.py, analyze_repository_priority)

The analysis reads repository attributes (which do not raise) and lists
the root directory (repo.get_contents(""), which can raise).  The try
covers the file listing AND the two keyword checks, so a failed listing
skips all three of those contributions.  The source also accumulates a
list of reason strings in evaluation order; no claim depends on them and
only the score is modelled.  Python truthiness of the optional strings:
None and the empty string are falsy. -/

def truthyStr : Option String → Bool
  | none => false
  | some s => !(s == "")

def devFiles : List String := ["README.md", "API.md", "docs", "api", "swagger.yml", "openapi.yml"]

def apiKeywords : List String := ["api", "sdk", "library", "client", "developer", "toolkit"]

structure RepoPr where
  name : String
  /-- (datetime.now() - repo.pushed_at).days -/
  pushedDays : Nat
  /-- (datetime.now() - repo.created_at).days -/
  createdDays : Nat
  stars : Nat
  forks : Nat
  /-- Outcome of get_contents("") as the list of entry names. -/
  rootFiles : Except Unit (List String)
  description : Option String
  topics : List String
  homepage : Option String
  /-- Outcome of get_contents("catalog-info.yaml") in
  generate_priority_report: ok means the descriptor is committed. -/
  descriptorProbe : Except Unit Unit

/-- The try block: file listing plus the two keyword checks; a failed
listing contributes nothing. -/
def tryBlockScore (r : RepoPr) : Nat :=
  match r.rootFiles with
  | Except.error _ => 0
  | Except.ok files =>
    (if files.any (fun f => devFiles.any (fun df => strContains (strLower f) (strLower df))) then 30 else 0)
    + (if (match r.description with
           | none => false
           | some d => !(d == "") && apiKeywords.any (fun k => strContains (strLower d) k)) then 20 else 0)
    + (if !r.topics.isEmpty
          && r.topics.any (fun t => apiKeywords.any (fun k => strContains (strLower t) k)) then 20 else 0)

/-- The score accumulated by analyze_repository_priority, rule by rule in
source order. -/
def priorityScore (r : RepoPr) : Nat :=
  (if r.pushedDays ≤ 30 then 30 else 0)
  + (if r.createdDays ≥ 180 then 20 else 0)
  + (if r.stars > 0 then min (r.stars * 2) 50 else 0)
  + (if r.forks > 0 then min (r.forks * 5) 50 else 0)
  + tryBlockScore r
  + (if truthyStr r.description then 10 else 0)
  + (if truthyStr r.homepage then 10 else 0)
  + (if !r.topics.isEmpty then min (r.topics.length * 5) 20 else 0)

/-! The ten independent scoring rules, each a function of the repository
alone. -/

def ruleRecentPush (r : RepoPr) : Nat := if r.pushedDays ≤ 30 then 30 else 0

def ruleEstablished (r : RepoPr) : Nat := if r.createdDays ≥ 180 then 20 else 0

def ruleStars (r : RepoPr) : Nat := if r.stars > 0 then min (r.stars * 2) 50 else 0

def ruleForks (r : RepoPr) : Nat := if r.forks > 0 then min (r.forks * 5) 50 else 0

def ruleDevDocs (r : RepoPr) : Nat :=
  match r.rootFiles with
  | Except.error _ => 0
  | Except.ok files =>
    if files.any (fun f => devFiles.any (fun df => strContains (strLower f) (strLower df))) then 30 else 0

def ruleDescKeyword (r : RepoPr) : Nat :=
  match r.rootFiles with
  | Except.error _ => 0
  | Except.ok _ =>
    if (match r.description with
        | none => false
        | some d => !(d == "") && apiKeywords.any (fun k => strContains (strLower d) k)) then 20 else 0

def ruleTopicKeyword (r : RepoPr) : Nat :=
  match r.rootFiles with
  | Except.error _ => 0
  | Except.ok _ =>
    if !r.topics.isEmpty
        && r.topics.any (fun t => apiKeywords.any (fun k => strContains (strLower t) k)) then 20 else 0

def ruleHasDesc (r : RepoPr) : Nat := if truthyStr r.description then 10 else 0

def ruleHomepage (r : RepoPr) : Nat := if truthyStr r.homepage then 10 else 0

def ruleTopics (r : RepoPr) : Nat :=
  if !r.topics.isEmpty then min (r.topics.length * 5) 20 else 0

/-- The scenario repository of the claim: pushed 5 days ago, created 400
days ago, 5 stars, 1 fork, description REST client SDK, a README, no
homepage, no topics. -/
def prScenario : RepoPr :=
  { name := "rest-client", pushedDays := 5, createdDays := 400, stars := 5, forks := 1,
    rootFiles := Except.ok ["README.md"], description := some "REST client SDK",
    topics := [], homepage := none, descriptorProbe := Except.error () }

/-! ## Priority report (backstage_automation.py, generate_priority_report)

Per repository: the descriptor probe succeeding runs continue before any
scoring; any exception from it is swallowed (pass) and the repository is
analyzed; only results with score above 30 are kept.  The kept results
are then sorted by score descending (Python list.sort is stable) and the
top ten are rendered. -/

/-- The collection loop: name and score of every analyzed repository
whose descriptor probe raised and whose score exceeds 30. -/
def priorityResults : List RepoPr → List (String × Nat)
  | [] => []
  | r :: rest =>
    match r.descriptorProbe with
    | Except.ok _ => priorityResults rest
    | Except.error _ =>
      if priorityScore r > 30 then (r.name, priorityScore r) :: priorityResults rest
      else priorityResults rest

/-- Stable insertion for the descending sort: an earlier element stays
before later elements with an equal score. -/
def insertDesc (x : String × Nat) : List (String × Nat) → List (String × Nat)
  | [] => [x]
  | y :: rest => if x.2 ≥ y.2 then x :: y :: rest else y :: insertDesc x rest

/-- The stable descending sort by score. -/
def sortDesc : List (String × Nat) → List (String × Nat)
  | [] => []
  | x :: rest => insertDesc x (sortDesc rest)

/-- The entries rendered by the report: top ten by descending score. -/
def reportEntries (repos : List RepoPr) : List (String × Nat) :=
  (sortDesc (priorityResults repos)).take 10

/-- A high-scoring repository without a descriptor, for the witness. -/
def prCandidate : RepoPr :=
  { name := "api-lib", pushedDays := 5, createdDays := 400, stars := 5, forks := 1,
    rootFiles := Except.ok ["README.md"], description := some "REST client SDK",
    topics := [], homepage := none, descriptorProbe := Except.error () }

/-! ## Secure storage (secure_storage.py, SecureStorage)

save_org_config writes encrypt(json.dumps(config)) to the file
orgName.enc inside the storage directory; load_org_config returns None
when that file does not exist and json.loads(decrypt(bytes)) otherwise.
The storage directory is a map from file name to stored ciphertext.  The
Fernet cipher and the JSON codec are external libraries, abstracted as
function parameters whose library contracts — decrypt inverts encrypt,
json.loads inverts json.dumps — are explicit hypotheses of the
round-trip theorem. -/

structure Storage (β : Type) where
  files : String → Option β

/-- save_org_config: writes the encrypted serialized config under
orgName.enc. -/
def saveOrgConfig {α β : Type} (enc : String → β) (dumps : α → String)
    (st : Storage β) (orgName : String) (config : α) : Storage β :=
  { files := fun p =>
      if p = orgName ++ ".enc" then some (enc (dumps config)) else st.files p }

/-- load_org_config: None when orgName.enc does not exist, otherwise the
decrypted, deserialized content. -/
def loadOrgConfig {α β : Type} (dec : β → String) (loads : String → α)
    (st : Storage β) (orgName : String) : Option α :=
  match st.files (orgName ++ ".enc") with
  | none => none
  | some d => some (loads (dec d))

/-! ## Theorems -/

lemma runReportAux_fst_indep (repos : List RepoST) :
    ∀ c lines lines', (runReportAux c lines repos).1 = (runReportAux c lines' repos).1 := by
  induction repos with
  | nil => intro c lines lines'; rfl
  | cons r rest ih => intro c lines lines'; exact ih _ _ _

lemma runReportAux_snd (repos : List RepoST) :
    ∀ c lines, (runReportAux c lines repos).2 = lines ++ repos.map detailLine := by
  induction repos with
  | nil => intro c lines; simp [runReportAux]
  | cons r rest ih => intro c lines; simp [runReportAux, ih]

lemma runReportAux_total (repos : List RepoST) :
    ∀ c lines, (runReportAux c lines repos).1.total = c.total + repos.length := by
  induction repos with
  | nil => intro c lines; simp [runReportAux]
  | cons r rest ih =>
    intro c lines
    rw [runReportAux, ih]
    cases hs : statusOf r <;> simp [stepCounts, hs] <;> omega

lemma runReportAux_onboarded (repos : List RepoST) :
    ∀ c lines, (runReportAux c lines repos).1.onboarded
      = c.onboarded + (repos.filter (fun x => isOnboardedB (statusOf x))).length := by
  induction repos with
  | nil => intro c lines; simp [runReportAux]
  | cons r rest ih =>
    intro c lines
    rw [runReportAux, ih]
    cases hs : statusOf r <;>
      simp [stepCounts, hs, List.filter_cons, isOnboardedB] <;> omega

lemma runReportAux_inprog (repos : List RepoST) :
    ∀ c lines, (runReportAux c lines repos).1.inProgress
      = c.inProgress + (repos.filter (fun x => isInProgressB (statusOf x))).length := by
  induction repos with
  | nil => intro c lines; simp [runReportAux]
  | cons r rest ih =>
    intro c lines
    rw [runReportAux, ih]
    cases hs : statusOf r <;>
      simp [stepCounts, hs, List.filter_cons, isInProgressB] <;> omega

lemma runReportAux_notonb (repos : List RepoST) :
    ∀ c lines, (runReportAux c lines repos).1.notOnboarded
      = c.notOnboarded + (repos.filter (fun x => isNotOnboardedB (statusOf x))).length := by
  induction repos with
  | nil => intro c lines; simp [runReportAux]
  | cons r rest ih =>
    intro c lines
    rw [runReportAux, ih]
    cases hs : statusOf r <;>
      simp [stepCounts, hs, List.filter_cons, isNotOnboardedB] <;> omega

/-- C1: classification of the two scenarios named by the claim.  A repo
with both Dockerfile and package.json is classified service, as the
claim says.  A repo with package.json and no service indicator is ALSO
classified service, not website: get_contents("Dockerfile") raises for
the missing file, the exception escapes the any() generator, and the
blanket except returns the default, so the website and library branches
are unreachable for ordinary repositories. -/
theorem determine_component_type_bug :
    determineComponentType (probeOfFiles ["Dockerfile", "package.json"]) = "service"
    ∧ determineComponentType (probeOfFiles ["package.json"]) = "service" := by
  constructor <;> rfl

/-- C2: lifecycle of the three scenarios named by the claim.  Archived
wins regardless of other fields, and a protected main branch gives
production, as the claim says.  But a non-archived repository that is
10 days old with 5 commits and an unprotected main branch is classified
production, not experimental: get_protection() raises when protection is
disabled, and the blanket except returns the fail-open default, so the
experimental and development branches are unreachable. -/
theorem determine_lifecycle_bug :
    determineLifecycle
      { archived := true, branch := BranchState.protectedOn, ageDays := 1000,
        commitCount := some 5000, hasLastPush := true } = "deprecated"
    ∧ determineLifecycle
      { archived := false, branch := BranchState.protectedOn, ageDays := 10,
        commitCount := some 5, hasLastPush := true } = "production"
    ∧ determineLifecycle
      { archived := false, branch := BranchState.unprotected, ageDays := 10,
        commitCount := some 5, hasLastPush := true } = "production" := by
  refine ⟨rfl, rfl, rfl⟩

/-- C3 counterexample: a repository whose descriptor lookup fails in
transit (not a 404) and whose pull-request lookup succeeds with no open
PRs resolves to NotOnboarded and is counted among the positive counts,
where the claim as stated demands Error(message) excluded from them: the
inner except around the descriptor probe swallows every exception. -/
theorem generate_status_report_counterexample :
    stRepoFail.descriptorProbe = Except.error LookupErr.transportFail
    ∧ statusOf stRepoFail = Status.notOnboarded
    ∧ (runReport [stRepoFail] []).1.notOnboarded = 1 := by
  refine ⟨rfl, rfl, rfl⟩

/-- C3 (amended): per repository, a successful descriptor probe is
terminal and yields Onboarded; a failed descriptor probe (file absent or
lookup failed, indistinguishable to the code) falls through to the
pull-request scan, whose first branch containing the marker yields
InProgress with that PR number, else NotOnboarded; only a failure of the
pull-request lookup yields Error(message).  In aggregation the total
counts every repository, each positive count counts exactly the
repositories resolving to that status (so errored repositories are in
none of the three), and every repository contributes its detail line
without aborting the rest. -/
theorem generate_status_report_amended (r : RepoST) (repos : List RepoST) (s : List String) :
    (∀ u, r.descriptorProbe = Except.ok u → statusOf r = Status.onboarded)
    ∧ (∀ e prs, r.descriptorProbe = Except.error e → r.pulls = Except.ok prs →
        statusOf r = (match findMarkerPR prs with
          | some pr => Status.inProgress pr.number
          | none => Status.notOnboarded))
    ∧ (∀ e m, r.descriptorProbe = Except.error e → r.pulls = Except.error m →
        statusOf r = Status.error m)
    ∧ (runReport repos s).1.total = repos.length
    ∧ (runReport repos s).1.onboarded
        = (repos.filter (fun x => isOnboardedB (statusOf x))).length
    ∧ (runReport repos s).1.inProgress
        = (repos.filter (fun x => isInProgressB (statusOf x))).length
    ∧ (runReport repos s).1.notOnboarded
        = (repos.filter (fun x => isNotOnboardedB (statusOf x))).length
    ∧ (runReport repos s).2 = s ++ repos.map detailLine := by
  refine ⟨?_, ?_, ?_, ?_, ?_, ?_, ?_, ?_⟩
  · intro u hu; simp [statusOf, hu]
  · intro e prs he hp; simp [statusOf, he, hp]
  · intro e m he hm; simp [statusOf, he, hm]
  · simpa [runReport] using runReportAux_total repos
      { total := 0, onboarded := 0, inProgress := 0, notOnboarded := 0 } s
  · simpa [runReport] using runReportAux_onboarded repos
      { total := 0, onboarded := 0, inProgress := 0, notOnboarded := 0 } s
  · simpa [runReport] using runReportAux_inprog repos
      { total := 0, onboarded := 0, inProgress := 0, notOnboarded := 0 } s
  · simpa [runReport] using runReportAux_notonb repos
      { total := 0, onboarded := 0, inProgress := 0, notOnboarded := 0 } s
  · exact runReportAux_snd repos
      { total := 0, onboarded := 0, inProgress := 0, notOnboarded := 0 } s

/-- C3 witness: the amended theorem applied to a repository with an open
PR on branch backstage-integration-1700000000 and to an errored
repository alongside it. -/
theorem generate_status_report_amended_witness :
    statusOf stRepoPR = Status.inProgress 7
    ∧ (runReport [stRepoPR, stRepoFail] []).1.total = 2 := by
  have h := generate_status_report_amended stRepoPR [stRepoPR, stRepoFail] []
  refine ⟨?_, ?_⟩
  · have h2 := h.2.1 LookupErr.absent
      [{ number := 7, headRef := "backstage-integration-1700000000" }] rfl rfl
    exact h2
  · exact h.2.2.2.1

/-- C8: status aggregation is idempotent on the counts: a second run over
the same repository set, starting from the detail-line state left behind
by the first run, yields the same total, Onboarded, InProgress and
NotOnboarded counts (even though the accumulated detail list differs). -/
theorem status_report_idempotent (repos : List RepoST) (s : List String) :
    (runReport repos (runReport repos s).2).1 = (runReport repos s).1 := by
  exact runReportAux_fst_indep repos _ _ _

/-- C4 counterexample: with one readable top-level openapi.yaml followed
by a swagger.yaml whose content read fails, the scan returns the one
spec collected before the failure — a non-empty list — where the claim
as stated demands an empty result on any I/O failure. -/
theorem detect_api_specs_counterexample :
    detectApiSpecs fsPartialRepo
      = [{ path := "openapi.yaml", type := "openapi", content := "spec-a" }]
    ∧ detectApiSpecs fsPartialRepo ≠ [] := by
  refine ⟨by decide, by decide⟩

/-- C4 (amended): detection is best-effort with partial results.  A
failure listing the top level yields the empty list; an I/O failure
while reading a matched top-level file aborts the scan and returns
exactly the specs collected before it; a failure listing a recognized
docs/api/specs directory skips that directory only and the scan
continues. -/
theorem detect_api_specs_amended (r : RepoFS) (acc : List ApiSpec)
    (e : TopEntry) (rest : List TopEntry) :
    (∀ err, r.topLevel = Except.error err → detectApiSpecs r = [])
    ∧ (e.isDir = false → specNameMatches e.name = true →
        ∀ err, e.contentResult = Except.error err → processTop acc (e :: rest) = acc)
    ∧ (e.isDir = true → specDirNames.contains (strLower e.name) = true →
        ∀ err, e.subEntries = Except.error err →
          processTop acc (e :: rest) = processTop acc rest) := by
  refine ⟨?_, ?_, ?_⟩
  · intro err h; simp [detectApiSpecs, h]
  · intro hd hm err hc; simp [processTop, hd, hm, hc]
  · intro hd hm err hs; simp [processTop, hd, hm, hs]

/-- C4 witness: the amended theorem applied to a repository whose
top-level listing fails and to the failing swagger.yaml entry. -/
theorem detect_api_specs_amended_witness :
    detectApiSpecs { topLevel := Except.error () } = []
    ∧ processTop [] [fsBadSpec] = [] := by
  constructor
  · exact (detect_api_specs_amended { topLevel := Except.error () } [] fsBadSpec []).1 () rfl
  · exact (detect_api_specs_amended { topLevel := Except.error () } [] fsBadSpec []).2.1
      rfl (by decide) () rfl

/-- C5 counterexample: with no CODEOWNERS team, a contributor alice, and
a team-membership lookup that SUCCEEDS with an empty result, the code
returns default-team, where the claim demands user:alice — the if over
teams.totalCount simply falls through to the final fallback, and
user:login is produced only when the lookup raises. -/
theorem determine_owner_counterexample :
    ownerFromCodeowners ownRepoEmptyTeams.codeowners = none
    ∧ ownRepoEmptyTeams.contributors = Except.ok ["alice"]
    ∧ ownRepoEmptyTeams.userTeams = Except.ok []
    ∧ determineOwner ownRepoEmptyTeams = "default-team"
    ∧ determineOwner ownRepoEmptyTeams ≠ "user:alice" := by
  refine ⟨rfl, rfl, rfl, rfl, by decide⟩

/-- C5 (amended): when the CODEOWNERS stage yields no team and a top
contributor exists, the owner is user:login exactly when the
team-membership lookup FAILS; a lookup that succeeds with an empty
result falls through to the literal default-team, and a successful
lookup with at least one team returns the first team name. -/
theorem determine_owner_amended (r : RepoOwn) (top : String) (rest : List String)
    (hco : ownerFromCodeowners r.codeowners = none)
    (hc : r.contributors = Except.ok (top :: rest)) :
    (r.userTeams = Except.ok [] → determineOwner r = "default-team")
    ∧ (∀ e, r.userTeams = Except.error e → determineOwner r = "user:" ++ top)
    ∧ (∀ t ts, r.userTeams = Except.ok (t :: ts) → determineOwner r = t) := by
  refine ⟨?_, ?_, ?_⟩
  · intro ht; simp [determineOwner, hco, hc, ht]
  · intro e ht; simp [determineOwner, hco, hc, ht]
  · intro t ts ht; simp [determineOwner, hco, hc, ht]

/-- C5 witness: the amended theorem applied to the empty-team repository
and to its variant whose team lookup raises. -/
theorem determine_owner_amended_witness :
    determineOwner ownRepoEmptyTeams = "default-team"
    ∧ determineOwner
        { codeowners := Except.error (), contributors := Except.ok ["alice"],
          userTeams := Except.error () } = "user:alice" := by
  constructor
  · exact (determine_owner_amended ownRepoEmptyTeams "alice" [] rfl rfl).1 rfl
  · exact (determine_owner_amended
      { codeowners := Except.error (), contributors := Except.ok ["alice"],
        userTeams := Except.error () } "alice" [] rfl rfl).2.1 () rfl

lemma priorityScore_eq_rules (r : RepoPr) :
    priorityScore r
      = ruleRecentPush r + ruleEstablished r + ruleStars r + ruleForks r
        + ruleDevDocs r + ruleDescKeyword r + ruleTopicKeyword r
        + ruleHasDesc r + ruleHomepage r + ruleTopics r := by
  cases h : r.rootFiles <;>
    simp only [priorityScore, tryBlockScore, ruleRecentPush, ruleEstablished,
      ruleStars, ruleForks, ruleDevDocs, ruleDescKeyword, ruleTopicKeyword,
      ruleHasDesc, ruleHomepage, ruleTopics, h] <;> ring

/-- C6: the priority score is the sum of the ten independent rules (so it
is additive and insensitive to evaluation order), and on the scenario
repository — pushed 5 days ago, created 400 days ago, 5 stars, 1 fork,
description REST client SDK, a README, no homepage, no topics — it
equals 30 + 20 + 10 + 5 + 30 + 20 + 10 = 125. -/
theorem priority_score_additive_scenario (r : RepoPr) :
    priorityScore r
      = ruleRecentPush r + ruleEstablished r + ruleStars r + ruleForks r
        + ruleDevDocs r + ruleDescKeyword r + ruleTopicKeyword r
        + ruleHasDesc r + ruleHomepage r + ruleTopics r
    ∧ priorityScore prScenario = 125 := by
  exact ⟨priorityScore_eq_rules r, by decide⟩

/-- C10: the priority score is a natural number bounded by 260, the sum
of all rule contributions at their caps
(30 + 20 + 50 + 50 + 30 + 20 + 20 + 10 + 10 + 20). -/
theorem priority_score_bounded (r : RepoPr) :
    0 ≤ priorityScore r ∧ priorityScore r ≤ 260 := by
  refine ⟨Nat.zero_le _, ?_⟩
  rw [priorityScore_eq_rules r]
  have h1 : ruleRecentPush r ≤ 30 := by unfold ruleRecentPush; split <;> omega
  have h2 : ruleEstablished r ≤ 20 := by unfold ruleEstablished; split <;> omega
  have h3 : ruleStars r ≤ 50 := by
    unfold ruleStars; split
    · exact le_trans (Nat.min_le_right _ _) (by omega)
    · omega
  have h4 : ruleForks r ≤ 50 := by
    unfold ruleForks; split
    · exact le_trans (Nat.min_le_right _ _) (by omega)
    · omega
  have h5 : ruleDevDocs r ≤ 30 := by
    unfold ruleDevDocs; split
    · omega
    · split <;> omega
  have h6 : ruleDescKeyword r ≤ 20 := by
    unfold ruleDescKeyword; split
    · omega
    · split <;> omega
  have h7 : ruleTopicKeyword r ≤ 20 := by
    unfold ruleTopicKeyword; split
    · omega
    · split <;> omega
  have h8 : ruleHasDesc r ≤ 10 := by unfold ruleHasDesc; split <;> omega
  have h9 : ruleHomepage r ≤ 10 := by unfold ruleHomepage; split <;> omega
  have h10 : ruleTopics r ≤ 20 := by
    unfold ruleTopics; split
    · exact le_trans (Nat.min_le_right _ _) (by omega)
    · omega
  omega

lemma mem_insertDesc {p x : String × Nat} {l : List (String × Nat)}
    (h : p ∈ insertDesc x l) : p = x ∨ p ∈ l := by
  induction l with
  | nil => simpa [insertDesc] using h
  | cons y rest ih =>
    by_cases hc : x.2 ≥ y.2
    · simpa [insertDesc, hc] using h
    · simp only [insertDesc, if_neg hc, List.mem_cons] at h
      rcases h with h | h
      · exact Or.inr (by simp [h])
      · rcases ih h with h | h
        · exact Or.inl h
        · exact Or.inr (by simp [h])

lemma mem_sortDesc {p : String × Nat} {l : List (String × Nat)}
    (h : p ∈ sortDesc l) : p ∈ l := by
  induction l with
  | nil => simpa [sortDesc] using h
  | cons x rest ih =>
    rcases mem_insertDesc h with h | h
    · simp [h]
    · exact List.mem_cons_of_mem _ (ih h)

lemma mem_priorityResults {p : String × Nat} {repos : List RepoPr}
    (h : p ∈ priorityResults repos) :
    ∃ r, r ∈ repos ∧ (∃ e, r.descriptorProbe = Except.error e)
      ∧ p = (r.name, priorityScore r) ∧ priorityScore r > 30 := by
  induction repos with
  | nil => simp [priorityResults] at h
  | cons r rest ih =>
    revert h
    cases hd : r.descriptorProbe with
    | ok u =>
      intro h
      simp only [priorityResults, hd] at h
      obtain ⟨r', hr', hrest⟩ := ih h
      exact ⟨r', List.mem_cons_of_mem _ hr', hrest⟩
    | error e =>
      intro h
      simp only [priorityResults, hd] at h
      by_cases hs : priorityScore r > 30
      · rw [if_pos hs] at h
        rcases List.mem_cons.mp h with h | h
        · exact ⟨r, List.mem_cons_self _ _, ⟨e, hd⟩, h, hs⟩
        · obtain ⟨r', hr', hrest⟩ := ih h
          exact ⟨r', List.mem_cons_of_mem _ hr', hrest⟩
      · rw [if_neg hs] at h
        obtain ⟨r', hr', hrest⟩ := ih h
        exact ⟨r', List.mem_cons_of_mem _ hr', hrest⟩

/-- C7: every entry of the priority report comes from a repository whose
descriptor probe RAISED (no catalog-info.yaml readable) and whose score
exceeds 30; hence a repository with a committed descriptor file is never
included, whatever its score — it is skipped before scoring. -/
theorem priority_report_excludes_onboarded (repos : List RepoPr) (p : String × Nat)
    (hp : p ∈ reportEntries repos) :
    ∃ r, r ∈ repos ∧ (∃ e, r.descriptorProbe = Except.error e)
      ∧ p = (r.name, priorityScore r) ∧ priorityScore r > 30 := by
  exact mem_priorityResults (mem_sortDesc (List.take_subset 10 _ hp))

/-- C7 witness: the theorem applied to a one-repository organization
whose repository scores 125 and has no descriptor. -/
theorem priority_report_excludes_onboarded_witness :
    ∃ r, r ∈ [prCandidate] ∧ (∃ e, r.descriptorProbe = Except.error e)
      ∧ ("api-lib", 125) = (r.name, priorityScore r) ∧ priorityScore r > 30 := by
  exact priority_report_excludes_onboarded [prCandidate] ("api-lib", 125) (by decide)

/-- C9: under the same encryption key (the same cipher pair, with the
Fernet contract that decrypt inverts encrypt) and the JSON codec
contract, loading an organization configuration right after saving it
returns the saved configuration, and loading an organization whose file
was never saved returns the absent value. -/
theorem secure_storage_roundtrip {α β : Type}
    (enc : String → β) (dec : β → String)
    (dumps : α → String) (loads : String → α)
    (hcipher : ∀ s, dec (enc s) = s) (hjson : ∀ c, loads (dumps c) = c)
    (st : Storage β) (orgName : String) (config : α) :
    loadOrgConfig dec loads (saveOrgConfig enc dumps st orgName config) orgName
      = some config
    ∧ (∀ (org2 : String) (st2 : Storage β), st2.files (org2 ++ ".enc") = none →
        loadOrgConfig dec loads st2 org2 = none) := by
  constructor
  · simp [loadOrgConfig, saveOrgConfig, hcipher, hjson]
  · intro org2 st2 h2; simp [loadOrgConfig, h2]

/-- C9 witness: the round trip at a concrete configuration with the
identity cipher and codec over an empty storage directory. -/
theorem secure_storage_roundtrip_witness :
    loadOrgConfig (fun b => b) (fun s => s)
      (saveOrgConfig (fun s => s) (fun c => c)
        { files := fun _ => none } "acme" "token-config") "acme"
      = some "token-config"
    ∧ loadOrgConfig (fun b => b) (fun s => s)
        ({ files := fun _ => none } : Storage String) "never-saved" = none := by
  have h := secure_storage_roundtrip (fun s => s) (fun b => b) (fun c => c) (fun s => s)
    (fun s => rfl) (fun c => rfl) { files := fun _ => none } "acme" "token-config"
  exact ⟨h.1, h.2 "never-saved" { files := fun _ => none } rfl⟩
